import Mathlib

/-!
# Observer / Observable logger (`main.cpp`)

A shallow embedding of the single translation unit of the repository:

* `Observer` and its three concrete subclasses, with the three virtual
  reactions `onWarning`, `onError`, `onFatalError`;
* `Observable`, the registry (`std::vector<Observer*>`) with `addObserver`,
  `removeObserver` and the three notify loops `warning`, `error`,
  `fatalError`;
* `main`.

Modelling decisions.

* An `Observer*` is an address (`Ptr`); pointer comparison is comparison of
  addresses.  The objects the pointers refer to live in a `Heap`, a map from
  addresses to the dynamic type (and fields) of the object stored there.
  Dereferencing a null or dangling pointer is undefined behaviour in C++ and
  is outside the model: the heap is total.
* The outside world of the process is a `World`: the text written so far to
  `std::cout` and `std::cerr`, the content of every file, and which paths can
  be opened for appending.  `std::endl` is the line break `\n` (flushing is
  not observable here).  Writes to an opened stream are assumed to succeed.
* Virtual calls made by the notify loops are recorded in a ghost invocation
  trace (`Sys.trace`), next to the world they act on.
* `std::remove` and `vector::erase` are library code; they are embedded from
  the reference implementation of the erase-remove idiom (find the first
  match, then compact the tail in place, then cut the vector at the returned
  iterator).
* `Op`, `step` and `runOps` describe a client calling the five public methods
  in some order; `demo` is the call sequence of `main` with the observers and
  messages as parameters.  The section "Vocabulary of the specification"
  holds the notions the statements need and the program does not define:
  lines of a text, append-only growth of a world, worlds that differ in one
  file, the diagnostic a reaction sends to standard error.
-/

namespace Logger

/-! ## The outside world -/

/-- The observable environment of the process. -/
structure World where
  /-- text written to `std::cout` so far -/
  cout : String
  /-- text written to `std::cerr` so far -/
  cerr : String
  /-- content of the file at a path, `none` when no file exists there -/
  files : String → Option String
  /-- whether `std::ofstream(path, std::ios::app)` succeeds in opening -/
  canOpen : String → Bool

/-- Stream insertion `std::cout << text`. -/
def World.writeCout (w : World) (text : String) : World :=
  { w with cout := w.cout ++ text }

/-- Stream insertion `std::cerr << text`. -/
def World.writeCerr (w : World) (text : String) : World :=
  { w with cerr := w.cerr ++ text }

/-- Construction `std::ofstream outfile(path, std::ios::app)`: on success the file exists
afterwards (it is created empty when it was absent) and the result is the new
world; on failure nothing changes and the stream is not open (`none`). -/
def World.openAppend (w : World) (path : String) : Option World :=
  if w.canOpen path then
    some { w with files := fun q => if q = path then some ((w.files path).getD "") else w.files q }
  else
    none

/-- Stream insertion `outfile << text` on a stream opened in append mode on `path`. -/
def World.writeFile (w : World) (path : String) (text : String) : World :=
  { w with files := fun q => if q = path then some ((w.files path).getD "" ++ text) else w.files q }

/-! ## Observers -/

/-- Dynamic type of an `Observer` object, with the fields of the subclass. -/
inductive Observer where
  /-- a plain `Observer`: every reaction is the empty default body -/
  | base : Observer
  | ConsoleWarningObserver : Observer
  | FileErrorObserver (filepath_ : String) : Observer
  | ConsoleAndFileFatalErrorObserver (filepath_ : String) : Observer
  deriving DecidableEq, Repr

/-- Method `ConsoleWarningObserver::onWarning`. -/
def ConsoleWarningObserver.onWarning (message : String) (w : World) : World :=
  w.writeCout ("Warning: " ++ message ++ "\n")

/-- Method `FileErrorObserver::onError`. -/
def FileErrorObserver.onError (filepath_ : String) (message : String) (w : World) : World :=
  match w.openAppend filepath_ with
  | some w1 => w1.writeFile filepath_ ("Error: " ++ message ++ "\n")
  | none => w.writeCerr ("Failed to open file: " ++ filepath_ ++ "\n")

/-- Method `ConsoleAndFileFatalErrorObserver::onFatalError`. -/
def ConsoleAndFileFatalErrorObserver.onFatalError (filepath_ : String) (message : String)
    (w : World) : World :=
  let w0 := w.writeCout ("Fatal Error: " ++ message ++ "\n")
  match w0.openAppend filepath_ with
  | some w1 => w1.writeFile filepath_ ("Fatal Error: " ++ message ++ "\n")
  | none => w0.writeCerr ("Failed to open file: " ++ filepath_ ++ "\n")

/-- Virtual dispatch of `onWarning`: the override of the dynamic type, or the
empty body inherited from `Observer`. -/
def Observer.onWarning (o : Observer) (message : String) (w : World) : World :=
  match o with
  | .ConsoleWarningObserver => ConsoleWarningObserver.onWarning message w
  | _ => w

/-- Virtual dispatch of `onError`. -/
def Observer.onError (o : Observer) (message : String) (w : World) : World :=
  match o with
  | .FileErrorObserver filepath_ => FileErrorObserver.onError filepath_ message w
  | _ => w

/-- Virtual dispatch of `onFatalError`. -/
def Observer.onFatalError (o : Observer) (message : String) (w : World) : World :=
  match o with
  | .ConsoleAndFileFatalErrorObserver filepath_ =>
      ConsoleAndFileFatalErrorObserver.onFatalError filepath_ message w
  | _ => w

/-! ## Pointers, heap and the invocation trace -/

/-- An `Observer*`: the address of the object. -/
abbrev Ptr := Nat

/-- The objects the registered pointers refer to. -/
abbrev Heap := Ptr → Observer

/-- One virtual call made through a registered pointer. -/
inductive Event where
  | onWarning (target : Ptr) (message : String) : Event
  | onError (target : Ptr) (message : String) : Event
  | onFatalError (target : Ptr) (message : String) : Event
  deriving DecidableEq, Repr

/-- The pointer an invocation was made through. -/
def Event.target : Event → Ptr
  | .onWarning l _ => l
  | .onError l _ => l
  | .onFatalError l _ => l

/-- The world together with the ghost record of the virtual calls made. -/
structure Sys where
  world : World
  trace : List Event

/-- The call `observer->onWarning(message)`. -/
def callOnWarning (heap : Heap) (message : String) (s : Sys) (observer : Ptr) : Sys :=
  { world := (heap observer).onWarning message s.world,
    trace := s.trace ++ [Event.onWarning observer message] }

/-- The call `observer->onError(message)`. -/
def callOnError (heap : Heap) (message : String) (s : Sys) (observer : Ptr) : Sys :=
  { world := (heap observer).onError message s.world,
    trace := s.trace ++ [Event.onError observer message] }

/-- The call `observer->onFatalError(message)`. -/
def callOnFatalError (heap : Heap) (message : String) (s : Sys) (observer : Ptr) : Sys :=
  { world := (heap observer).onFatalError message s.world,
    trace := s.trace ++ [Event.onFatalError observer message] }

/-! ## The erase-remove idiom -/

/-- Library `std::find(begin, end, value)` as an index: the position of the first
element equal to `value`, or the length when there is none. -/
def stdFind (value : Ptr) : List Ptr → Nat
  | [] => 0
  | x :: xs => if x = value then 0 else stdFind value xs + 1

/-- The compaction loop of `std::remove`:
`for (i = first; ++i != last;) if (!(*i == value)) *first++ = std::move(*i);`
entered with `i` already advanced; `n` is the number of elements still to be
visited (`last - i`), so `i` is always a valid index and the `none` branch is
never taken from `stdRemove`.  Returns the vector and the final `first`. -/
def removeLoop (value : Ptr) : Nat → Nat → Nat → List Ptr → List Ptr × Nat
  | 0, _, first, v => (v, first)
  | n + 1, i, first, v =>
    match v[i]? with
    | none => (v, first)
    | some x =>
      if x = value then removeLoop value n (i + 1) first v
      else removeLoop value n (i + 1) (first + 1) (v.set first x)

/-- Library `std::remove(v.begin(), v.end(), value)`: the vector after compaction and
the returned iterator (as an index). -/
def stdRemove (v : List Ptr) (value : Ptr) : List Ptr × Nat :=
  let first := stdFind value v
  if first = v.length then (v, first)
  else removeLoop value (v.length - (first + 1)) (first + 1) first v

/-- Library `v.erase(it, v.end())` applied to the result of `std::remove`. -/
def eraseToEnd (r : List Ptr × Nat) : List Ptr :=
  r.1.take r.2

/-! ## Observable -/

/-- The subject: the registered pointers, in vector order. -/
structure Observable where
  observers : List Ptr
  deriving DecidableEq, Repr

/-- A default-constructed `Observable`. -/
def Observable.empty : Observable := ⟨[]⟩

/-- Method `Observable::addObserver`. -/
def Observable.addObserver (self : Observable) (observer : Ptr) : Observable :=
  { observers := self.observers ++ [observer] }

/-- Method `Observable::removeObserver`. -/
def Observable.removeObserver (self : Observable) (observer : Ptr) : Observable :=
  { observers := eraseToEnd (stdRemove self.observers observer) }

/-- Method `Observable::warning`. -/
def Observable.warning (self : Observable) (heap : Heap) (message : String) (s : Sys) : Sys :=
  self.observers.foldl (callOnWarning heap message) s

/-- Method `Observable::error`. -/
def Observable.error (self : Observable) (heap : Heap) (message : String) (s : Sys) : Sys :=
  self.observers.foldl (callOnError heap message) s

/-- Method `Observable::fatalError`. -/
def Observable.fatalError (self : Observable) (heap : Heap) (message : String) (s : Sys) : Sys :=
  self.observers.foldl (callOnFatalError heap message) s

/-- The virtual calls recorded between state `s` and a later state `s1`. -/
def newEvents (s s1 : Sys) : List Event :=
  s1.trace.drop s.trace.length

/-! ## Sequences of operations on a subject -/

/-- One call made by a client of an `Observable`. -/
inductive Op where
  | addObserver (observer : Ptr) : Op
  | removeObserver (observer : Ptr) : Op
  | warning (message : String) : Op
  | error (message : String) : Op
  | fatalError (message : String) : Op
  deriving DecidableEq, Repr

/-- A subject together with the system it runs in. -/
structure Run where
  subject : Observable
  sys : Sys

/-- Effect of one client call. -/
def step (heap : Heap) (r : Run) : Op → Run
  | .addObserver l => { r with subject := r.subject.addObserver l }
  | .removeObserver l => { r with subject := r.subject.removeObserver l }
  | .warning m => { r with sys := r.subject.warning heap m r.sys }
  | .error m => { r with sys := r.subject.error heap m r.sys }
  | .fatalError m => { r with sys := r.subject.fatalError heap m r.sys }

/-- Effect of a sequence of client calls, first call first. -/
def runOps (heap : Heap) (ops : List Op) (r : Run) : Run :=
  ops.foldl (step heap) r

/-! ## `main` -/

/-- The three objects `main` constructs, at the addresses 1, 2 and 3:
`consoleWarningObserver`, `fileErrorObserver("error_log.txt")` and
`fatalErrorObserver("fatal_error_log.txt")`. -/
def mainHeap : Heap
  | 1 => .ConsoleWarningObserver
  | 2 => .FileErrorObserver "error_log.txt"
  | 3 => .ConsoleAndFileFatalErrorObserver "fatal_error_log.txt"
  | _ => .base

/-- The function `main`: the final system and the exit status. -/
def main (s : Sys) : Sys × Int :=
  let logger := Observable.empty
  let consoleWarningObserver : Ptr := 1
  let fileErrorObserver : Ptr := 2
  let fatalErrorObserver : Ptr := 3
  let logger := logger.addObserver consoleWarningObserver
  let logger := logger.addObserver fileErrorObserver
  let logger := logger.addObserver fatalErrorObserver
  let s := logger.warning mainHeap "This is a warning message." s
  let s := logger.error mainHeap "This is an error message." s
  let s := logger.fatalError mainHeap "This is a fatal error message." s
  (s, 0)

/-- The sequence of calls of `main` for arbitrary observers and messages:
register `c`, `fe`, `fa` in this order on a fresh subject, then call
`warning(wm)`, `error(em)`, `fatalError(fm)`. -/
def demo (heap : Heap) (c fe fa : Ptr) (wm em fm : String) (s : Sys) : Sys :=
  let logger := ((Observable.empty.addObserver c).addObserver fe).addObserver fa
  logger.fatalError heap fm (logger.error heap em (logger.warning heap wm s))

/-! ## Vocabulary of the specification -/

/-- The lines of a text: the pieces between line breaks; a line break ends a
line, so a text ending in a line break has no empty last line. -/
def linesOfChars : List Char → List (List Char)
  | [] => []
  | c :: cs =>
    if c = '\n' then [] :: linesOfChars cs
    else
      match linesOfChars cs with
      | [] => [[c]]
      | l :: ls => (c :: l) :: ls

/-- The lines of a text, as strings. -/
def linesOf (s : String) : List String :=
  (linesOfChars s.data).map String.mk

/-- A message without line break. -/
def SingleLine (s : String) : Prop :=
  '\n' ∉ s.data

instance (s : String) : Decidable (SingleLine s) := by
  unfold SingleLine; infer_instance

/-- World `w2` can be reached from `w1` by appending only: each output stream
and each file that existed still starts with what it held in `w1`. -/
def World.Extends (w1 w2 : World) : Prop :=
  (∃ t, w2.cout = w1.cout ++ t) ∧
  (∃ t, w2.cerr = w1.cerr ++ t) ∧
  (∀ p c, w1.files p = some c → ∃ t, w2.files p = some (c ++ t))

/-- Worlds `w1` and `w2` are the same apart from the file at path `p` (its
content and whether it can be opened) and apart from standard error. -/
def World.AgreeOff (p : String) (w1 w2 : World) : Prop :=
  w1.cout = w2.cout ∧
  (∀ q, q ≠ p → w1.files q = w2.files q) ∧
  (∀ q, q ≠ p → w1.canOpen q = w2.canOpen q)

/-- The text the reaction `onError` of observer `o` sends to standard error in
world `w`. -/
def Observer.onErrorDiagnostic (o : Observer) (w : World) : String :=
  match o with
  | .FileErrorObserver filepath_ =>
      if w.canOpen filepath_ then "" else "Failed to open file: " ++ filepath_ ++ "\n"
  | _ => ""

/-- The text the reaction `onFatalError` of observer `o` sends to standard
error in world `w`. -/
def Observer.onFatalErrorDiagnostic (o : Observer) (w : World) : String :=
  match o with
  | .ConsoleAndFileFatalErrorObserver filepath_ =>
      if w.canOpen filepath_ then "" else "Failed to open file: " ++ filepath_ ++ "\n"
  | _ => ""

/-- The file an observer writes to, if it has one. -/
def Observer.path? : Observer → Option String
  | .FileErrorObserver filepath_ => some filepath_
  | .ConsoleAndFileFatalErrorObserver filepath_ => some filepath_
  | _ => none

/-- The end-to-end expectation: standard output contains the line
`Warning: w` and later the line `Fatal Error: f`, and no line `Error: e`; file
`A` holds exactly the one line `Error: e`; file `B` holds exactly the one line
`Fatal Error: f`. -/
def EndToEndSpec (out : World) (A B w e f : String) : Prop :=
  List.Sublist ["Warning: " ++ w, "Fatal Error: " ++ f] (linesOf out.cout) ∧
  "Error: " ++ e ∉ linesOf out.cout ∧
  (out.files A).map linesOf = some ["Error: " ++ e] ∧
  (out.files B).map linesOf = some ["Fatal Error: " ++ f]

/-- A world with empty output streams and no files, in which every path can
be opened. -/
def World.fresh : World :=
  { cout := "", cerr := "", files := fun _ => none, canOpen := fun _ => true }

/-- The fresh world, except that the path `p` cannot be opened. -/
def World.blocked (p : String) : World :=
  { cout := "", cerr := "", files := fun _ => none, canOpen := fun q => q != p }

/-! ## Lemmas on the erase-remove idiom -/
theorem removeLoop_spec (value : Ptr) :
    ∀ (n i first : Nat) (v : List Ptr), first < i → i + n = v.length →
      eraseToEnd (removeLoop value n i first v)
        = v.take first ++ (v.drop i).filter (fun x => x != value) := by
  intro n
  induction n with
  | zero =>
    intro i first v _ hlen
    have hi : v.length ≤ i := by omega
    simp [removeLoop, eraseToEnd, List.drop_eq_nil_of_le hi]
  | succ n ih =>
    intro i first v hfi hlen
    have hi : i < v.length := by omega
    have hget : v[i]? = some v[i] := List.getElem?_eq_getElem hi
    have hdrop : v.drop i = v[i] :: v.drop (i + 1) := List.drop_eq_getElem_cons hi
    rw [removeLoop]
    simp only [hget]
    by_cases hx : v[i] = value
    · simp only [hx, if_true]
      rw [ih (i + 1) first v (by omega) (by omega), hdrop]
      simp [hx]
    · simp only [hx, if_false]
      rw [ih (i + 1) (first + 1) (v.set first v[i]) (by omega) (by simp; omega), hdrop]
      have h1 : (v.set first v[i]).take (first + 1) = v.take first ++ [v[i]] := by
        have hlt : first < v.length := by omega
        rw [List.take_succ, List.set_take, List.set_eq_of_length_le (by simp)]
        simp [List.getElem?_set, hlt]
      have h2 : (v.set first v[i]).drop (i + 1) = v.drop (i + 1) := by
        rw [List.drop_set_of_lt]
        omega
      rw [h1, h2, List.filter_cons_of_pos (by simpa using hx)]
      simp

theorem stdFind_spec (value : Ptr) :
    ∀ v : List Ptr,
      (stdFind value v = v.length ∧ v.filter (fun x => x != value) = v) ∨
      (stdFind value v < v.length ∧
        ∃ h : stdFind value v < v.length, v[stdFind value v] = value ∧
        (v.take (stdFind value v)).filter (fun x => x != value) = v.take (stdFind value v)) := by
  intro v
  induction v with
  | nil => left; simp [stdFind]
  | cons x xs ih =>
    by_cases hx : x = value
    · right
      simp [stdFind, hx]
    · rcases ih with ⟨h1, h2⟩ | ⟨h1, h, h2, h3⟩
      · left
        simp [stdFind, hx, h1, h2]
      · right
        simp [stdFind, hx, h1, h2, h3]

theorem erase_remove_eq_filter (v : List Ptr) (value : Ptr) :
    eraseToEnd (stdRemove v value) = v.filter (fun x => x != value) := by
  unfold stdRemove
  rcases stdFind_spec value v with ⟨h1, h2⟩ | ⟨h1, h, h2, h3⟩
  · simp [h1, eraseToEnd, h2]
  · simp only [Nat.ne_of_lt h1, if_false]
    rw [removeLoop_spec value _ _ _ v (by omega) (by omega)]
    conv_rhs => rw [← List.take_append_drop (stdFind value v) v]
    rw [List.filter_append, h3, List.drop_eq_getElem_cons h]
    simp [h2]

/-! ## Lemmas on the notify loops -/

theorem foldl_call_trace (f : Sys → Ptr → Sys) (ev : Ptr → Event)
    (hf : ∀ s o, (f s o).trace = s.trace ++ [ev o]) :
    ∀ (ls : List Ptr) (s : Sys), (ls.foldl f s).trace = s.trace ++ ls.map ev := by
  intro ls
  induction ls with
  | nil => intro s; simp
  | cons o os ih => intro s; simp [ih, hf]

theorem warning_trace (obs : Observable) (heap : Heap) (m : String) (s : Sys) :
    (obs.warning heap m s).trace = s.trace ++ obs.observers.map (fun l => Event.onWarning l m) :=
  foldl_call_trace (callOnWarning heap m) _ (fun _ _ => rfl) obs.observers s

theorem error_trace (obs : Observable) (heap : Heap) (m : String) (s : Sys) :
    (obs.error heap m s).trace = s.trace ++ obs.observers.map (fun l => Event.onError l m) :=
  foldl_call_trace (callOnError heap m) _ (fun _ _ => rfl) obs.observers s

theorem fatalError_trace (obs : Observable) (heap : Heap) (m : String) (s : Sys) :
    (obs.fatalError heap m s).trace
      = s.trace ++ obs.observers.map (fun l => Event.onFatalError l m) :=
  foldl_call_trace (callOnFatalError heap m) _ (fun _ _ => rfl) obs.observers s

theorem newEvents_of_append (s s1 : Sys) (evs : List Event) (h : s1.trace = s.trace ++ evs) :
    newEvents s s1 = evs := by
  simp [newEvents, h]

theorem addObserver_foldl (ls : List Ptr) :
    ∀ obs : Observable, (ls.foldl Observable.addObserver obs).observers = obs.observers ++ ls := by
  induction ls with
  | nil => intro obs; simp
  | cons o os ih => intro obs; simp [ih, Observable.addObserver]

theorem removeObserver_observers (obs : Observable) (l : Ptr) :
    (obs.removeObserver l).observers = obs.observers.filter (fun x => x != l) :=
  erase_remove_eq_filter obs.observers l

theorem count_map_onWarning (ls : List Ptr) (l : Ptr) (m : String) :
    (ls.map (fun x => Event.onWarning x m)).count (Event.onWarning l m) = ls.count l := by
  induction ls with
  | nil => simp
  | cons o os ih =>
    by_cases h : o = l
    · simp [h, ih]
    · have h1 : Event.onWarning o m ≠ Event.onWarning l m := by
        intro hc; injection hc with h2 _; exact h h2
      simp [List.count_cons, h, h1, ih]

theorem count_map_onError (ls : List Ptr) (l : Ptr) (m : String) :
    (ls.map (fun x => Event.onError x m)).count (Event.onError l m) = ls.count l := by
  induction ls with
  | nil => simp
  | cons o os ih =>
    by_cases h : o = l
    · simp [h, ih]
    · have h1 : Event.onError o m ≠ Event.onError l m := by
        intro hc; injection hc with h2 _; exact h h2
      simp [List.count_cons, h, h1, ih]

theorem count_map_onFatalError (ls : List Ptr) (l : Ptr) (m : String) :
    (ls.map (fun x => Event.onFatalError x m)).count (Event.onFatalError l m) = ls.count l := by
  induction ls with
  | nil => simp
  | cons o os ih =>
    by_cases h : o = l
    · simp [h, ih]
    · have h1 : Event.onFatalError o m ≠ Event.onFatalError l m := by
        intro hc; injection hc with h2 _; exact h h2
      simp [List.count_cons, h, h1, ih]

theorem countP_target_map (ev : Ptr → Event) (hev : ∀ x, (ev x).target = x)
    (ls : List Ptr) (l : Ptr) :
    (ls.map ev).countP (fun e => e.target == l) = ls.count l := by
  induction ls with
  | nil => simp
  | cons o os ih =>
    by_cases h : o = l
    · simp [List.countP_cons, hev, h, ih]
    · simp [List.countP_cons, List.count_cons, hev, h, ih]

/-! ## The subject: registration, removal, dispatch -/

/-- C1: every notify operation calls exactly its own reaction, with the given
message, once per registered entry and in registration order, and calls no
other reaction: the calls recorded for `warning(m)` over `[l1, ..., ln]` are
exactly `[onWarning(l1, m), ..., onWarning(ln, m)]`, likewise for `error` and
`fatalError`; and registering `ls` one after the other appends them to the
registered sequence in that order. -/
theorem C1_notify_invokes_own_reaction_in_order (heap : Heap) (obs : Observable)
    (ls : List Ptr) (m : String) (s : Sys) :
    (ls.foldl Observable.addObserver obs).observers = obs.observers ++ ls ∧
    (ls.foldl Observable.addObserver Observable.empty).observers = ls ∧
    newEvents s (obs.warning heap m s) = obs.observers.map (fun l => Event.onWarning l m) ∧
    newEvents s (obs.error heap m s) = obs.observers.map (fun l => Event.onError l m) ∧
    newEvents s (obs.fatalError heap m s)
      = obs.observers.map (fun l => Event.onFatalError l m) ∧
    (obs.warning heap m s).trace = s.trace ++ obs.observers.map (fun l => Event.onWarning l m) ∧
    (obs.error heap m s).trace = s.trace ++ obs.observers.map (fun l => Event.onError l m) ∧
    (obs.fatalError heap m s).trace
      = s.trace ++ obs.observers.map (fun l => Event.onFatalError l m) :=
  ⟨addObserver_foldl ls obs,
   by simp [addObserver_foldl, Observable.empty],
   newEvents_of_append _ _ _ (warning_trace obs heap m s),
   newEvents_of_append _ _ _ (error_trace obs heap m s),
   newEvents_of_append _ _ _ (fatalError_trace obs heap m s),
   warning_trace obs heap m s, error_trace obs heap m s, fatalError_trace obs heap m s⟩

/-- C2: after `removeObserver(l)` the registered sequence has no occurrence of
`l`, however often it was registered, and every other entry keeps its
multiplicity and relative order: the new sequence is the old one filtered by
`entry != l`. -/
theorem C2_removeObserver_removes_all_occurrences (obs : Observable) (l : Ptr) :
    (obs.removeObserver l).observers = obs.observers.filter (fun x => x != l) ∧
    l ∉ (obs.removeObserver l).observers ∧
    (obs.removeObserver l).observers.count l = 0 ∧
    (∀ x, x ≠ l → (obs.removeObserver l).observers.count x = obs.observers.count x) ∧
    List.Sublist (obs.removeObserver l).observers obs.observers := by
  have h := removeObserver_observers obs l
  refine ⟨h, ?_, ?_, ?_, ?_⟩
  · simp [h]
  · rw [List.count_eq_zero]; simp [h]
  · intro x hx
    rw [h, List.count_filter]
    simpa using hx
  · rw [h]; exact List.filter_sublist _

/-- C3: removing a listener that is not registered succeeds and leaves the
subject exactly as it was (same entries, same order), so every later
notification runs as if the call had not been made. -/
theorem C3_removeObserver_absent_is_noop (obs : Observable) (l : Ptr)
    (h : l ∉ obs.observers) :
    obs.removeObserver l = obs ∧
    (obs.removeObserver l).observers = obs.observers ∧
    (∀ (heap : Heap) (m : String) (s : Sys),
      (obs.removeObserver l).warning heap m s = obs.warning heap m s ∧
      (obs.removeObserver l).error heap m s = obs.error heap m s ∧
      (obs.removeObserver l).fatalError heap m s = obs.fatalError heap m s) := by
  have hobs : (obs.removeObserver l).observers = obs.observers := by
    rw [removeObserver_observers, List.filter_eq_self]
    intro a ha
    have : a ≠ l := fun hc => h (hc ▸ ha)
    simpa using this
  have heq : obs.removeObserver l = obs := by
    cases obs
    simpa [Observable.removeObserver] using hobs
  refine ⟨heq, hobs, ?_⟩
  intro heap m s
  rw [heq]
  exact ⟨rfl, rfl, rfl⟩

theorem C3_removeObserver_absent_is_noop_witness :
    (3 : Ptr) ∉ (Observable.mk [1, 2, 1]).observers ∧
    (Observable.mk [1, 2, 1]).removeObserver 3 = Observable.mk [1, 2, 1] :=
  ⟨by decide, (C3_removeObserver_absent_is_noop (Observable.mk [1, 2, 1]) 3 (by decide)).1⟩

/-- C4: one notify call invokes the relevant reaction of a listener `l` as
many times as `l` occurs in the registered sequence, and invokes nothing else
on `l`; in particular, when `l` was not registered and `addObserver(l)` is
then called twice, each notify call invokes the relevant reaction of `l`
exactly two times. -/
theorem C4_invocations_equal_multiplicity (heap : Heap) (obs : Observable) (l : Ptr)
    (m : String) (s : Sys) :
    ((newEvents s (obs.warning heap m s)).count (Event.onWarning l m) = obs.observers.count l ∧
     (newEvents s (obs.error heap m s)).count (Event.onError l m) = obs.observers.count l ∧
     (newEvents s (obs.fatalError heap m s)).count (Event.onFatalError l m)
       = obs.observers.count l) ∧
    ((newEvents s (obs.warning heap m s)).countP (fun e => e.target == l)
       = obs.observers.count l ∧
     (newEvents s (obs.error heap m s)).countP (fun e => e.target == l)
       = obs.observers.count l ∧
     (newEvents s (obs.fatalError heap m s)).countP (fun e => e.target == l)
       = obs.observers.count l) ∧
    (l ∉ obs.observers →
      ((obs.addObserver l).addObserver l).observers.count l = 2 ∧
      (newEvents s (((obs.addObserver l).addObserver l).warning heap m s)).count
        (Event.onWarning l m) = 2 ∧
      (newEvents s (((obs.addObserver l).addObserver l).error heap m s)).count
        (Event.onError l m) = 2 ∧
      (newEvents s (((obs.addObserver l).addObserver l).fatalError heap m s)).count
        (Event.onFatalError l m) = 2) := by
  have hw : ∀ o : Observable, newEvents s (o.warning heap m s)
      = o.observers.map (fun l => Event.onWarning l m) :=
    fun o => newEvents_of_append _ _ _ (warning_trace o heap m s)
  have he : ∀ o : Observable, newEvents s (o.error heap m s)
      = o.observers.map (fun l => Event.onError l m) :=
    fun o => newEvents_of_append _ _ _ (error_trace o heap m s)
  have hf : ∀ o : Observable, newEvents s (o.fatalError heap m s)
      = o.observers.map (fun l => Event.onFatalError l m) :=
    fun o => newEvents_of_append _ _ _ (fatalError_trace o heap m s)
  refine ⟨⟨?_, ?_, ?_⟩, ⟨?_, ?_, ?_⟩, ?_⟩
  · rw [hw, count_map_onWarning]
  · rw [he, count_map_onError]
  · rw [hf, count_map_onFatalError]
  · rw [hw]; exact countP_target_map (fun x => Event.onWarning x m) (fun _ => rfl) _ _
  · rw [he]; exact countP_target_map (fun x => Event.onError x m) (fun _ => rfl) _ _
  · rw [hf]; exact countP_target_map (fun x => Event.onFatalError x m) (fun _ => rfl) _ _
  · intro hl
    have hc : ((obs.addObserver l).addObserver l).observers.count l = 2 := by
      simp [Observable.addObserver, List.count_eq_zero_of_not_mem hl]
    refine ⟨hc, ?_, ?_, ?_⟩
    · rw [hw, count_map_onWarning, hc]
    · rw [he, count_map_onError, hc]
    · rw [hf, count_map_onFatalError, hc]

theorem C4_invocations_equal_multiplicity_witness :
    (7 : Ptr) ∉ (Observable.mk [1, 2]).observers ∧
    (newEvents ⟨World.fresh, []⟩
        ((((Observable.mk [1, 2]).addObserver 7).addObserver 7).warning mainHeap "m"
          ⟨World.fresh, []⟩)).count (Event.onWarning 7 "m") = 2 :=
  ⟨by decide,
   ((C4_invocations_equal_multiplicity mainHeap (Observable.mk [1, 2]) 7 "m"
      ⟨World.fresh, []⟩).2.2 (by decide)).2.1⟩

/-! ## The reactions of the file observers -/

theorem FileErrorObserver.onError_open (path X : String) (w : World)
    (hopen : w.canOpen path = true) :
    FileErrorObserver.onError path X w =
      { w with files := fun q =>
          if q = path then some ((w.files path).getD "" ++ ("Error: " ++ X ++ "\n"))
          else w.files q } := by
  unfold FileErrorObserver.onError World.openAppend World.writeFile
  simp only [hopen, if_true]
  congr 1
  funext q
  by_cases hq : q = path <;> simp [hq]

theorem FileErrorObserver.onError_closed (path X : String) (w : World)
    (hopen : w.canOpen path = false) :
    FileErrorObserver.onError path X w =
      { w with cerr := w.cerr ++ ("Failed to open file: " ++ path ++ "\n") } := by
  unfold FileErrorObserver.onError World.openAppend World.writeCerr
  simp [hopen]

theorem ConsoleAndFileFatalErrorObserver.onFatalError_open (path X : String) (w : World)
    (hopen : w.canOpen path = true) :
    ConsoleAndFileFatalErrorObserver.onFatalError path X w =
      { w with
        cout := w.cout ++ ("Fatal Error: " ++ X ++ "\n")
        files := fun q =>
          if q = path then some ((w.files path).getD "" ++ ("Fatal Error: " ++ X ++ "\n"))
          else w.files q } := by
  unfold ConsoleAndFileFatalErrorObserver.onFatalError World.openAppend World.writeFile
    World.writeCout
  simp only [hopen, if_true]
  congr 1
  funext q
  by_cases hq : q = path <;> simp [hq]

theorem ConsoleAndFileFatalErrorObserver.onFatalError_closed (path X : String) (w : World)
    (hopen : w.canOpen path = false) :
    ConsoleAndFileFatalErrorObserver.onFatalError path X w =
      { w with
        cout := w.cout ++ ("Fatal Error: " ++ X ++ "\n")
        cerr := w.cerr ++ ("Failed to open file: " ++ path ++ "\n") } := by
  unfold ConsoleAndFileFatalErrorObserver.onFatalError World.openAppend World.writeCerr
    World.writeCout
  simp [hopen]

/-! ## Single reactions -/

/-- C6: on a path that can be opened for appending and whose file holds `C`
(`C` is empty when the file does not exist yet), `FileErrorObserver::onError(X)`
leaves the file holding `C` followed by the one line `Error: X` and its line
break; a second call leaves `C` followed by two such lines.  Nothing else
changes: other files, standard output and standard error are as before. -/
theorem C6_onError_appends_one_line (path X C : String) (w : World)
    (hopen : w.canOpen path = true) (hC : (w.files path).getD "" = C) :
    (FileErrorObserver.onError path X w).files path = some (C ++ ("Error: " ++ X ++ "\n")) ∧
    (FileErrorObserver.onError path X (FileErrorObserver.onError path X w)).files path
      = some (C ++ ("Error: " ++ X ++ "\n") ++ ("Error: " ++ X ++ "\n")) ∧
    (∀ q, q ≠ path → (FileErrorObserver.onError path X w).files q = w.files q) ∧
    (FileErrorObserver.onError path X w).cout = w.cout ∧
    (FileErrorObserver.onError path X w).cerr = w.cerr ∧
    (Observer.FileErrorObserver path).onError X w = FileErrorObserver.onError path X w := by
  have h1 := FileErrorObserver.onError_open path X w hopen
  have hopen1 : (FileErrorObserver.onError path X w).canOpen path = true := by
    rw [h1]; exact hopen
  have h2 := FileErrorObserver.onError_open path X (FileErrorObserver.onError path X w) hopen1
  refine ⟨?_, ?_, ?_, ?_, ?_, rfl⟩
  · rw [h1]; simp [hC]
  · rw [h2]; simp only [if_true]; rw [h1]; simp [hC]
  · intro q hq; rw [h1]; simp [hq]
  · rw [h1]
  · rw [h1]

theorem C6_onError_appends_one_line_witness :
    (FileErrorObserver.onError "log.txt" "X"
        { cout := "", cerr := "", files := fun _ => some "old\n", canOpen := fun _ => true }).files
      "log.txt" = some ("old\n" ++ ("Error: " ++ "X" ++ "\n")) :=
  (C6_onError_appends_one_line "log.txt" "X" "old\n"
    { cout := "", cerr := "", files := fun _ => some "old\n", canOpen := fun _ => true }
    rfl rfl).1

/-- C7: on a path that cannot be opened for appending,
`FileErrorObserver::onError(msg)` returns, having written
`Failed to open file: ` followed by the path and a line break to standard
error and nothing to standard output, and having changed no file. -/
theorem C7_onError_unopenable_diagnoses (path msg : String) (w : World)
    (hopen : w.canOpen path = false) :
    (FileErrorObserver.onError path msg w).cerr
      = w.cerr ++ ("Failed to open file: " ++ path ++ "\n") ∧
    (FileErrorObserver.onError path msg w).cout = w.cout ∧
    (FileErrorObserver.onError path msg w).files = w.files ∧
    (FileErrorObserver.onError path msg w).canOpen = w.canOpen ∧
    (Observer.FileErrorObserver path).onError msg w
      = { w with cerr := w.cerr ++ ("Failed to open file: " ++ path ++ "\n") } := by
  have h := FileErrorObserver.onError_closed path msg w hopen
  refine ⟨?_, ?_, ?_, ?_, h⟩ <;> rw [h]

theorem C7_onError_unopenable_diagnoses_witness :
    (FileErrorObserver.onError "/no/such/dir/log.txt" "X"
        { cout := "", cerr := "", files := fun _ => none, canOpen := fun _ => false }).cerr
      = "" ++ ("Failed to open file: " ++ "/no/such/dir/log.txt" ++ "\n") :=
  (C7_onError_unopenable_diagnoses "/no/such/dir/log.txt" "X"
    { cout := "", cerr := "", files := fun _ => none, canOpen := fun _ => false } rfl).1

/-- C10: `ConsoleAndFileFatalErrorObserver::onFatalError(msg)` always writes
`Fatal Error: ` + msg and a line break to standard output first; then, if the
path can be opened for appending, the file gains exactly that line after its
prior content and standard error is untouched, otherwise no file changes and
`Failed to open file: ` + path (and a line break) goes to standard error.  The
reactions `onWarning` and `onError` of this observer have no effect. -/
theorem C10_onFatalError_console_then_file (path msg : String) (w : World) :
    (ConsoleAndFileFatalErrorObserver.onFatalError path msg w).cout
      = w.cout ++ ("Fatal Error: " ++ msg ++ "\n") ∧
    ConsoleAndFileFatalErrorObserver.onFatalError path msg w
      = (match (w.writeCout ("Fatal Error: " ++ msg ++ "\n")).openAppend path with
         | some w1 => w1.writeFile path ("Fatal Error: " ++ msg ++ "\n")
         | none => (w.writeCout ("Fatal Error: " ++ msg ++ "\n")).writeCerr
                     ("Failed to open file: " ++ path ++ "\n")) ∧
    (w.canOpen path = true →
      (ConsoleAndFileFatalErrorObserver.onFatalError path msg w).files path
        = some ((w.files path).getD "" ++ ("Fatal Error: " ++ msg ++ "\n")) ∧
      (∀ q, q ≠ path →
        (ConsoleAndFileFatalErrorObserver.onFatalError path msg w).files q = w.files q) ∧
      (ConsoleAndFileFatalErrorObserver.onFatalError path msg w).cerr = w.cerr) ∧
    (w.canOpen path = false →
      (ConsoleAndFileFatalErrorObserver.onFatalError path msg w).files = w.files ∧
      (ConsoleAndFileFatalErrorObserver.onFatalError path msg w).cerr
        = w.cerr ++ ("Failed to open file: " ++ path ++ "\n")) ∧
    (Observer.ConsoleAndFileFatalErrorObserver path).onFatalError msg w
      = ConsoleAndFileFatalErrorObserver.onFatalError path msg w ∧
    (Observer.ConsoleAndFileFatalErrorObserver path).onWarning msg w = w ∧
    (Observer.ConsoleAndFileFatalErrorObserver path).onError msg w = w := by
  refine ⟨?_, rfl, ?_, ?_, rfl, rfl, rfl⟩
  · cases hopen : w.canOpen path
    · rw [ConsoleAndFileFatalErrorObserver.onFatalError_closed path msg w hopen]
    · rw [ConsoleAndFileFatalErrorObserver.onFatalError_open path msg w hopen]
  · intro hopen
    rw [ConsoleAndFileFatalErrorObserver.onFatalError_open path msg w hopen]
    refine ⟨by simp, ?_, rfl⟩
    intro q hq; simp [hq]
  · intro hopen
    rw [ConsoleAndFileFatalErrorObserver.onFatalError_closed path msg w hopen]
    exact ⟨rfl, rfl⟩

theorem C10_onFatalError_console_then_file_witness :
    World.fresh.canOpen "fatal_error_log.txt" = true ∧
    (ConsoleAndFileFatalErrorObserver.onFatalError "fatal_error_log.txt" "boom"
        World.fresh).files "fatal_error_log.txt"
      = some ((World.fresh.files "fatal_error_log.txt").getD ""
          ++ ("Fatal Error: " ++ "boom" ++ "\n")) :=
  ⟨rfl,
   ((C10_onFatalError_console_then_file "fatal_error_log.txt" "boom" World.fresh).2.2.1
      rfl).1⟩

/-! ## Append-only worlds -/

theorem World.Extends.refl (w : World) : w.Extends w :=
  ⟨⟨"", by simp⟩, ⟨"", by simp⟩, fun _ c h => ⟨"", by simp [h]⟩⟩

theorem World.Extends.trans {w1 w2 w3 : World} (h12 : w1.Extends w2) (h23 : w2.Extends w3) :
    w1.Extends w3 := by
  obtain ⟨⟨a, ha⟩, ⟨b, hb⟩, hf⟩ := h12
  obtain ⟨⟨a2, ha2⟩, ⟨b2, hb2⟩, hf2⟩ := h23
  refine ⟨⟨a ++ a2, by rw [ha2, ha, String.append_assoc]⟩,
    ⟨b ++ b2, by rw [hb2, hb, String.append_assoc]⟩, ?_⟩
  intro p c hc
  obtain ⟨t, ht⟩ := hf p c hc
  obtain ⟨t2, ht2⟩ := hf2 p (c ++ t) ht
  exact ⟨t ++ t2, by rw [ht2, String.append_assoc]⟩

theorem Observer.onWarning_extends (o : Observer) (m : String) (w : World) :
    w.Extends (o.onWarning m w) := by
  cases o <;> try exact World.Extends.refl w
  exact ⟨⟨_, rfl⟩, ⟨"", by simp [Observer.onWarning, ConsoleWarningObserver.onWarning,
    World.writeCout]⟩, fun _ c h => ⟨"", by simpa [Observer.onWarning,
    ConsoleWarningObserver.onWarning, World.writeCout] using h⟩⟩

theorem Observer.onError_extends (o : Observer) (m : String) (w : World) :
    w.Extends (o.onError m w) := by
  cases o <;> try exact World.Extends.refl w
  rename_i path
  show w.Extends (FileErrorObserver.onError path m w)
  cases hopen : w.canOpen path
  · rw [FileErrorObserver.onError_closed path m w hopen]
    exact ⟨⟨"", by simp⟩, ⟨_, rfl⟩, fun _ c h => ⟨"", by simpa using h⟩⟩
  · rw [FileErrorObserver.onError_open path m w hopen]
    refine ⟨⟨"", by simp⟩, ⟨"", by simp⟩, ?_⟩
    intro q c h
    by_cases hq : q = path
    · subst hq
      exact ⟨"Error: " ++ m ++ "\n", by simp [h]⟩
    · exact ⟨"", by simp [hq, h]⟩

theorem Observer.onFatalError_extends (o : Observer) (m : String) (w : World) :
    w.Extends (o.onFatalError m w) := by
  cases o <;> try exact World.Extends.refl w
  rename_i path
  show w.Extends (ConsoleAndFileFatalErrorObserver.onFatalError path m w)
  cases hopen : w.canOpen path
  · rw [ConsoleAndFileFatalErrorObserver.onFatalError_closed path m w hopen]
    exact ⟨⟨_, rfl⟩, ⟨_, rfl⟩, fun _ c h => ⟨"", by simpa using h⟩⟩
  · rw [ConsoleAndFileFatalErrorObserver.onFatalError_open path m w hopen]
    refine ⟨⟨_, rfl⟩, ⟨"", by simp⟩, ?_⟩
    intro q c h
    by_cases hq : q = path
    · subst hq
      exact ⟨"Fatal Error: " ++ m ++ "\n", by simp [h]⟩
    · exact ⟨"", by simp [hq, h]⟩

theorem foldl_call_extends (f : Sys → Ptr → Sys)
    (hf : ∀ (s : Sys) (o : Ptr), s.world.Extends (f s o).world) :
    ∀ (ls : List Ptr) (s : Sys), s.world.Extends (ls.foldl f s).world := by
  intro ls
  induction ls with
  | nil => intro s; exact World.Extends.refl _
  | cons o os ih => intro s; exact (hf s o).trans (ih (f s o))

theorem warning_extends (obs : Observable) (heap : Heap) (m : String) (s : Sys) :
    s.world.Extends (obs.warning heap m s).world :=
  foldl_call_extends _ (fun s o => Observer.onWarning_extends (heap o) m s.world) _ s

theorem error_extends (obs : Observable) (heap : Heap) (m : String) (s : Sys) :
    s.world.Extends (obs.error heap m s).world :=
  foldl_call_extends _ (fun s o => Observer.onError_extends (heap o) m s.world) _ s

theorem fatalError_extends (obs : Observable) (heap : Heap) (m : String) (s : Sys) :
    s.world.Extends (obs.fatalError heap m s).world :=
  foldl_call_extends _ (fun s o => Observer.onFatalError_extends (heap o) m s.world) _ s

theorem runOps_append (heap : Heap) (ops1 ops2 : List Op) (r : Run) :
    runOps heap (ops1 ++ ops2) r = runOps heap ops2 (runOps heap ops1 r) := by
  simp [runOps, List.foldl_append]

theorem runOps_without_listener (heap : Heap) (l : Ptr) :
    ∀ (ops : List Op) (r : Run), l ∉ r.subject.observers → Op.addObserver l ∉ ops →
      l ∉ (runOps heap ops r).subject.observers ∧
      r.sys.world.Extends (runOps heap ops r).sys.world ∧
      ∃ evs, (runOps heap ops r).sys.trace = r.sys.trace ++ evs ∧
        ∀ e ∈ evs, e.target ≠ l := by
  intro ops
  induction ops with
  | nil =>
    intro r hl _
    exact ⟨hl, World.Extends.refl _, [], by simp [runOps], by simp⟩
  | cons op ops ih =>
    intro r hl hops
    have hop : op ≠ Op.addObserver l := fun h => hops (by simp [h])
    have hrest : Op.addObserver l ∉ ops := fun h => hops (by simp [h])
    have hrun : runOps heap (op :: ops) r = runOps heap ops (step heap r op) := rfl
    rw [hrun]
    have key : l ∉ (step heap r op).subject.observers ∧
        r.sys.world.Extends (step heap r op).sys.world ∧
        ∃ evs, (step heap r op).sys.trace = r.sys.trace ++ evs ∧ ∀ e ∈ evs, e.target ≠ l := by
      cases op with
      | addObserver x =>
        refine ⟨?_, World.Extends.refl _, [], by simp [step], by simp⟩
        have hx : x ≠ l := fun h => hop (by rw [h])
        simp [step, Observable.addObserver, hl, Ne.symm hx]
      | removeObserver x =>
        refine ⟨?_, World.Extends.refl _, [], by simp [step], by simp⟩
        simp [step, removeObserver_observers, hl]
      | warning m =>
        refine ⟨hl, warning_extends _ heap m _, _, warning_trace _ heap m _, ?_⟩
        intro e he
        obtain ⟨x, hx, rfl⟩ := List.mem_map.1 he
        exact fun h => hl (h ▸ hx)
      | error m =>
        refine ⟨hl, error_extends _ heap m _, _, error_trace _ heap m _, ?_⟩
        intro e he
        obtain ⟨x, hx, rfl⟩ := List.mem_map.1 he
        exact fun h => hl (h ▸ hx)
      | fatalError m =>
        refine ⟨hl, fatalError_extends _ heap m _, _, fatalError_trace _ heap m _, ?_⟩
        intro e he
        obtain ⟨x, hx, rfl⟩ := List.mem_map.1 he
        exact fun h => hl (h ▸ hx)
    obtain ⟨k1, k2, evs1, k3, k4⟩ := key
    obtain ⟨i1, i2, evs2, i3, i4⟩ := ih (step heap r op) k1 hrest
    refine ⟨i1, k2.trans i2, evs1 ++ evs2, by rw [i3, k3, List.append_assoc], ?_⟩
    intro e he
    rcases List.mem_append.1 he with h | h
    · exact k4 e h
    · exact i4 e h

/-! ## Removal and later notifications -/

/-- C5: in a sequence of calls in which `removeObserver(l)` is made and `l` is
not registered again afterwards, no notify call after the removal invokes a
reaction of `l` (and `l` is not registered at the end), and what the calls
before the removal produced is kept: the invocation record, standard output,
standard error and the content of every file as they were just before the
removal are prefixes of their final values. -/
theorem C5_removed_listener_not_notified (heap : Heap) (pre post : List Op) (l : Ptr)
    (r : Run) (hpost : Op.addObserver l ∉ post) :
    (runOps heap (pre ++ Op.removeObserver l :: post) r).sys.trace
      = (runOps heap pre r).sys.trace
        ++ newEvents (runOps heap pre r).sys
            (runOps heap (pre ++ Op.removeObserver l :: post) r).sys ∧
    (∀ e ∈ newEvents (runOps heap pre r).sys
        (runOps heap (pre ++ Op.removeObserver l :: post) r).sys, e.target ≠ l) ∧
    l ∉ (runOps heap (pre ++ Op.removeObserver l :: post) r).subject.observers ∧
    (runOps heap pre r).sys.world.Extends
      (runOps heap (pre ++ Op.removeObserver l :: post) r).sys.world := by
  have hsplit : runOps heap (pre ++ Op.removeObserver l :: post) r
      = runOps heap post (step heap (runOps heap pre r) (Op.removeObserver l)) := by
    rw [runOps_append]; rfl
  have hl : l ∉ (step heap (runOps heap pre r) (Op.removeObserver l)).subject.observers := by
    simp [step, removeObserver_observers]
  obtain ⟨h1, h2, evs, h3, h4⟩ :=
    runOps_without_listener heap l post _ hl hpost
  have h3b : (runOps heap (pre ++ Op.removeObserver l :: post) r).sys.trace
      = (runOps heap pre r).sys.trace ++ evs := by
    rw [hsplit, h3]; rfl
  have hnew := newEvents_of_append _ _ _ h3b
  rw [hnew]
  refine ⟨h3b, h4, ?_, ?_⟩
  · rw [hsplit]; exact h1
  · rw [hsplit]; exact h2

theorem C5_removed_listener_not_notified_witness :
    Op.addObserver 1 ∉ [Op.warning "b", Op.fatalError "c"] ∧
    (1 : Ptr) ∉ (runOps mainHeap ([Op.addObserver 1, Op.addObserver 3, Op.warning "a"]
        ++ Op.removeObserver 1 :: [Op.warning "b", Op.fatalError "c"])
      ⟨Observable.empty, ⟨World.fresh, []⟩⟩).subject.observers :=
  ⟨by decide,
   (C5_removed_listener_not_notified mainHeap
      [Op.addObserver 1, Op.addObserver 3, Op.warning "a"] [Op.warning "b", Op.fatalError "c"] 1
      ⟨Observable.empty, ⟨World.fresh, []⟩⟩ (by decide)).2.2.1⟩

/-! ## Worlds that differ in one file -/

theorem FileErrorObserver.onError_frame (path m : String) (w : World) :
    (FileErrorObserver.onError path m w).cout = w.cout ∧
    (∀ q, q ≠ path → (FileErrorObserver.onError path m w).files q = w.files q) ∧
    (FileErrorObserver.onError path m w).canOpen = w.canOpen := by
  cases hopen : w.canOpen path
  · rw [FileErrorObserver.onError_closed _ m _ hopen]
    exact ⟨rfl, fun _ _ => rfl, rfl⟩
  · rw [FileErrorObserver.onError_open _ m _ hopen]
    exact ⟨rfl, fun q hq => by simp [hq], rfl⟩

theorem ConsoleAndFileFatalErrorObserver.onFatalError_frame (path m : String) (w : World) :
    (ConsoleAndFileFatalErrorObserver.onFatalError path m w).cout
      = w.cout ++ ("Fatal Error: " ++ m ++ "\n") ∧
    (∀ q, q ≠ path →
      (ConsoleAndFileFatalErrorObserver.onFatalError path m w).files q = w.files q) ∧
    (ConsoleAndFileFatalErrorObserver.onFatalError path m w).canOpen = w.canOpen := by
  cases hopen : w.canOpen path
  · rw [ConsoleAndFileFatalErrorObserver.onFatalError_closed _ m _ hopen]
    exact ⟨rfl, fun _ _ => rfl, rfl⟩
  · rw [ConsoleAndFileFatalErrorObserver.onFatalError_open _ m _ hopen]
    exact ⟨rfl, fun q hq => by simp [hq], rfl⟩

theorem Observer.onWarning_agreeOff (p : String) (o : Observer) (m : String) (w1 w2 : World)
    (h : World.AgreeOff p w1 w2) : World.AgreeOff p (o.onWarning m w1) (o.onWarning m w2) := by
  cases o <;> try exact h
  obtain ⟨h1, h2, h3⟩ := h
  exact ⟨by simp [Observer.onWarning, ConsoleWarningObserver.onWarning, World.writeCout, h1],
    h2, h3⟩

theorem Observer.onError_agreeOff (p : String) (o : Observer) (m : String) (w1 w2 : World)
    (h : World.AgreeOff p w1 w2) : World.AgreeOff p (o.onError m w1) (o.onError m w2) := by
  cases o <;> try exact h
  rename_i path
  show World.AgreeOff p (FileErrorObserver.onError path m w1)
    (FileErrorObserver.onError path m w2)
  obtain ⟨h1, h2, h3⟩ := h
  by_cases hp : path = p
  · subst hp
    obtain ⟨a1, a2, a3⟩ := FileErrorObserver.onError_frame path m w1
    obtain ⟨b1, b2, b3⟩ := FileErrorObserver.onError_frame path m w2
    refine ⟨by rw [a1, b1, h1], ?_, ?_⟩
    · intro q hq; rw [a2 q hq, b2 q hq, h2 q hq]
    · intro q hq; rw [a3, b3, h3 q hq]
  · have hsame := h3 path hp
    cases hb : w1.canOpen path
    · have hg : w2.canOpen path = false := by rw [← hsame, hb]
      rw [FileErrorObserver.onError_closed _ m _ hb, FileErrorObserver.onError_closed _ m _ hg]
      exact ⟨h1, h2, h3⟩
    · have hg : w2.canOpen path = true := by rw [← hsame, hb]
      rw [FileErrorObserver.onError_open _ m _ hb, FileErrorObserver.onError_open _ m _ hg]
      refine ⟨h1, ?_, h3⟩
      intro q hq
      by_cases hqp : q = path
      · simp [hqp, h2 path hp]
      · simp [hqp, h2 q hq]

theorem Observer.onFatalError_agreeOff (p : String) (o : Observer) (m : String)
    (w1 w2 : World) (h : World.AgreeOff p w1 w2) :
    World.AgreeOff p (o.onFatalError m w1) (o.onFatalError m w2) := by
  cases o <;> try exact h
  rename_i path
  show World.AgreeOff p (ConsoleAndFileFatalErrorObserver.onFatalError path m w1)
    (ConsoleAndFileFatalErrorObserver.onFatalError path m w2)
  obtain ⟨h1, h2, h3⟩ := h
  by_cases hp : path = p
  · subst hp
    obtain ⟨a1, a2, a3⟩ := ConsoleAndFileFatalErrorObserver.onFatalError_frame path m w1
    obtain ⟨b1, b2, b3⟩ := ConsoleAndFileFatalErrorObserver.onFatalError_frame path m w2
    refine ⟨by rw [a1, b1, h1], ?_, ?_⟩
    · intro q hq; rw [a2 q hq, b2 q hq, h2 q hq]
    · intro q hq; rw [a3, b3, h3 q hq]
  · have hsame := h3 path hp
    cases hb : w1.canOpen path
    · have hg : w2.canOpen path = false := by rw [← hsame, hb]
      rw [ConsoleAndFileFatalErrorObserver.onFatalError_closed _ m _ hb,
        ConsoleAndFileFatalErrorObserver.onFatalError_closed _ m _ hg]
      exact ⟨by simp [h1], h2, h3⟩
    · have hg : w2.canOpen path = true := by rw [← hsame, hb]
      rw [ConsoleAndFileFatalErrorObserver.onFatalError_open _ m _ hb,
        ConsoleAndFileFatalErrorObserver.onFatalError_open _ m _ hg]
      refine ⟨by simp [h1], ?_, h3⟩
      intro q hq
      by_cases hqp : q = path
      · simp [hqp, h2 path hp]
      · simp [hqp, h2 q hq]

theorem foldl_call_agreeOff (p : String) (f : Sys → Ptr → Sys)
    (hf : ∀ (s1 s2 : Sys) (o : Ptr), World.AgreeOff p s1.world s2.world →
      World.AgreeOff p (f s1 o).world (f s2 o).world) :
    ∀ (ls : List Ptr) (s1 s2 : Sys), World.AgreeOff p s1.world s2.world →
      World.AgreeOff p (ls.foldl f s1).world (ls.foldl f s2).world := by
  intro ls
  induction ls with
  | nil => intro s1 s2 h; exact h
  | cons o os ih => intro s1 s2 h; exact ih _ _ (hf s1 s2 o h)

theorem Observer.onError_cerr (o : Observer) (m : String) (w : World) :
    (o.onError m w).cerr = w.cerr ++ o.onErrorDiagnostic w ∧
    (o.onError m w).canOpen = w.canOpen := by
  cases o <;> try exact ⟨by simp [Observer.onError, Observer.onErrorDiagnostic], rfl⟩
  rename_i path
  show (FileErrorObserver.onError path m w).cerr = _ ∧
    (FileErrorObserver.onError path m w).canOpen = _
  cases hopen : w.canOpen path
  · rw [FileErrorObserver.onError_closed _ m _ hopen]
    simp [Observer.onErrorDiagnostic, hopen]
  · rw [FileErrorObserver.onError_open _ m _ hopen]
    simp [Observer.onErrorDiagnostic, hopen]

theorem Observer.onFatalError_cerr (o : Observer) (m : String) (w : World) :
    (o.onFatalError m w).cerr = w.cerr ++ o.onFatalErrorDiagnostic w ∧
    (o.onFatalError m w).canOpen = w.canOpen := by
  cases o <;> try exact ⟨by simp [Observer.onFatalError, Observer.onFatalErrorDiagnostic], rfl⟩
  rename_i path
  show (ConsoleAndFileFatalErrorObserver.onFatalError path m w).cerr = _ ∧
    (ConsoleAndFileFatalErrorObserver.onFatalError path m w).canOpen = _
  cases hopen : w.canOpen path
  · rw [ConsoleAndFileFatalErrorObserver.onFatalError_closed _ m _ hopen]
    simp [Observer.onFatalErrorDiagnostic, hopen]
  · rw [ConsoleAndFileFatalErrorObserver.onFatalError_open _ m _ hopen]
    simp [Observer.onFatalErrorDiagnostic, hopen]

theorem Observer.onErrorDiagnostic_congr (o : Observer) (w1 w2 : World)
    (h : w1.canOpen = w2.canOpen) : o.onErrorDiagnostic w1 = o.onErrorDiagnostic w2 := by
  cases o <;> simp [Observer.onErrorDiagnostic, h]

theorem Observer.onFatalErrorDiagnostic_congr (o : Observer) (w1 w2 : World)
    (h : w1.canOpen = w2.canOpen) :
    o.onFatalErrorDiagnostic w1 = o.onFatalErrorDiagnostic w2 := by
  cases o <;> simp [Observer.onFatalErrorDiagnostic, h]

theorem foldl_call_cerr (f : Sys → Ptr → Sys) (diag : Ptr → World → String)
    (hcongr : ∀ (o : Ptr) (w1 w2 : World), w1.canOpen = w2.canOpen → diag o w1 = diag o w2)
    (hf : ∀ (s : Sys) (o : Ptr), (f s o).world.cerr = s.world.cerr ++ diag o s.world ∧
      (f s o).world.canOpen = s.world.canOpen) :
    ∀ (ls : List Ptr) (s : Sys) (w0 : World), s.world.canOpen = w0.canOpen →
      (ls.foldl f s).world.cerr = ls.foldl (fun acc l => acc ++ diag l w0) s.world.cerr := by
  intro ls
  induction ls with
  | nil => intro s w0 _; rfl
  | cons o os ih =>
    intro s w0 h0
    rw [List.foldl_cons, List.foldl_cons, ih (f s o) w0 (by rw [(hf s o).2, h0]), (hf s o).1,
      hcongr o s.world w0 h0]

theorem error_cerr (obs : Observable) (heap : Heap) (m : String) (s : Sys) :
    (obs.error heap m s).world.cerr
      = obs.observers.foldl (fun acc l => acc ++ (heap l).onErrorDiagnostic s.world)
          s.world.cerr :=
  foldl_call_cerr (callOnError heap m) (fun l w => (heap l).onErrorDiagnostic w)
    (fun o w1 w2 h => Observer.onErrorDiagnostic_congr (heap o) w1 w2 h)
    (fun s o => Observer.onError_cerr (heap o) m s.world) obs.observers s s.world rfl

theorem fatalError_cerr (obs : Observable) (heap : Heap) (m : String) (s : Sys) :
    (obs.fatalError heap m s).world.cerr
      = obs.observers.foldl (fun acc l => acc ++ (heap l).onFatalErrorDiagnostic s.world)
          s.world.cerr :=
  foldl_call_cerr (callOnFatalError heap m) (fun l w => (heap l).onFatalErrorDiagnostic w)
    (fun o w1 w2 h => Observer.onFatalErrorDiagnostic_congr (heap o) w1 w2 h)
    (fun s o => Observer.onFatalError_cerr (heap o) m s.world) obs.observers s s.world rfl

theorem diagnostic_off_path (p : String) (o : Observer) (w1 w2 : World)
    (h : World.AgreeOff p w1 w2) (ho : o.path? ≠ some p) :
    o.onErrorDiagnostic w1 = o.onErrorDiagnostic w2 ∧
    o.onFatalErrorDiagnostic w1 = o.onFatalErrorDiagnostic w2 := by
  obtain ⟨_, _, h3⟩ := h
  cases o with
  | base => exact ⟨rfl, rfl⟩
  | ConsoleWarningObserver => exact ⟨rfl, rfl⟩
  | FileErrorObserver path =>
    have hp : path ≠ p := fun hc => ho (by simp [Observer.path?, hc])
    simp [Observer.onErrorDiagnostic, Observer.onFatalErrorDiagnostic, h3 path hp]
  | ConsoleAndFileFatalErrorObserver path =>
    have hp : path ≠ p := fun hc => ho (by simp [Observer.path?, hc])
    simp [Observer.onErrorDiagnostic, Observer.onFatalErrorDiagnostic, h3 path hp]

/-! ## Containment of a failure to open -/

/-- C8: a log file that cannot be opened does not stop a notification and
does not disturb the other listeners.  Let the file at `p` be unopenable in
the actual run (`sb`) and openable in an otherwise equal run (`sg`).  Then in
the actual run `error(m)` and `fatalError(m)` still invoke the reaction of
every registered entry, in order; both runs end with the same standard
output and the same content of every file other than `p`; standard error is
what it was followed by the diagnostic of each listener in order, where a
listener on another file contributes the same text in both runs, a listener
on `p` contributes `Failed to open file: p` in the actual run and nothing in
the other. -/
theorem C8_open_failure_is_contained (heap : Heap) (obs : Observable) (m p : String)
    (sb sg : Sys) (hbad : sb.world.canOpen p = false) (hgood : sg.world.canOpen p = true)
    (hrel : World.AgreeOff p sb.world sg.world) :
    (newEvents sb (obs.error heap m sb) = obs.observers.map (fun l => Event.onError l m) ∧
     newEvents sb (obs.fatalError heap m sb)
       = obs.observers.map (fun l => Event.onFatalError l m)) ∧
    (World.AgreeOff p (obs.error heap m sb).world (obs.error heap m sg).world ∧
     World.AgreeOff p (obs.fatalError heap m sb).world (obs.fatalError heap m sg).world) ∧
    ((obs.error heap m sb).world.cerr
       = obs.observers.foldl (fun acc l => acc ++ (heap l).onErrorDiagnostic sb.world)
           sb.world.cerr ∧
     (obs.error heap m sg).world.cerr
       = obs.observers.foldl (fun acc l => acc ++ (heap l).onErrorDiagnostic sg.world)
           sg.world.cerr ∧
     (obs.fatalError heap m sb).world.cerr
       = obs.observers.foldl (fun acc l => acc ++ (heap l).onFatalErrorDiagnostic sb.world)
           sb.world.cerr ∧
     (obs.fatalError heap m sg).world.cerr
       = obs.observers.foldl (fun acc l => acc ++ (heap l).onFatalErrorDiagnostic sg.world)
           sg.world.cerr) ∧
    (∀ o : Observer, o.path? ≠ some p →
      o.onErrorDiagnostic sb.world = o.onErrorDiagnostic sg.world ∧
      o.onFatalErrorDiagnostic sb.world = o.onFatalErrorDiagnostic sg.world) ∧
    ((Observer.FileErrorObserver p).onErrorDiagnostic sb.world
       = "Failed to open file: " ++ p ++ "\n" ∧
     (Observer.FileErrorObserver p).onErrorDiagnostic sg.world = "" ∧
     (Observer.ConsoleAndFileFatalErrorObserver p).onFatalErrorDiagnostic sb.world
       = "Failed to open file: " ++ p ++ "\n" ∧
     (Observer.ConsoleAndFileFatalErrorObserver p).onFatalErrorDiagnostic sg.world = "") := by
  refine ⟨⟨?_, ?_⟩, ⟨?_, ?_⟩, ⟨?_, ?_, ?_, ?_⟩, ?_, ?_⟩
  · exact newEvents_of_append _ _ _ (error_trace obs heap m sb)
  · exact newEvents_of_append _ _ _ (fatalError_trace obs heap m sb)
  · exact foldl_call_agreeOff p (callOnError heap m)
      (fun s1 s2 o h => Observer.onError_agreeOff p (heap o) m s1.world s2.world h)
      obs.observers sb sg hrel
  · exact foldl_call_agreeOff p (callOnFatalError heap m)
      (fun s1 s2 o h => Observer.onFatalError_agreeOff p (heap o) m s1.world s2.world h)
      obs.observers sb sg hrel
  · exact error_cerr obs heap m sb
  · exact error_cerr obs heap m sg
  · exact fatalError_cerr obs heap m sb
  · exact fatalError_cerr obs heap m sg
  · exact fun o ho => diagnostic_off_path p o sb.world sg.world hrel ho
  · simp [Observer.onErrorDiagnostic, Observer.onFatalErrorDiagnostic, hbad, hgood]

theorem C8_open_failure_is_contained_witness :
    (World.blocked "error_log.txt").canOpen "error_log.txt" = false ∧
    newEvents ⟨World.blocked "error_log.txt", []⟩
        ((Observable.mk [2, 1, 3]).error mainHeap "e"
          ⟨World.blocked "error_log.txt", []⟩)
      = (Observable.mk [2, 1, 3]).observers.map (fun l => Event.onError l "e") :=
  ⟨rfl,
   (C8_open_failure_is_contained mainHeap (Observable.mk [2, 1, 3]) "e" "error_log.txt"
      ⟨World.blocked "error_log.txt", []⟩ ⟨World.fresh, []⟩ rfl rfl
      ⟨rfl, fun _ _ => rfl, fun q hq => by simp [World.blocked, World.fresh, hq]⟩).1.1⟩

/-! ## Lines of text and the demonstration sequence -/
theorem linesOfChars_line (l rest : List Char) (h : '\n' ∉ l) :
    linesOfChars (l ++ '\n' :: rest) = l :: linesOfChars rest := by
  induction l with
  | nil => simp [linesOfChars]
  | cons c cs ih =>
    have hc : c ≠ '\n' := fun hc => h (by simp [hc])
    have hcs : '\n' ∉ cs := fun hcs => h (by simp [hcs])
    simp [linesOfChars, hc, ih hcs]

theorem linesOf_one_line (a : String) (ha : SingleLine a) : linesOf (a ++ "\n") = [a] := by
  have h := linesOfChars_line a.data [] ha
  have hn : ("\n" : String).data = ['\n'] := rfl
  simp [linesOf, String.data_append, hn, h, linesOfChars]

theorem linesOf_two_lines (a b : String) (ha : SingleLine a) (hb : SingleLine b) :
    linesOf (a ++ "\n" ++ (b ++ "\n")) = [a, b] := by
  have h1 := linesOfChars_line a.data (b.data ++ ['\n']) ha
  have h2 := linesOfChars_line b.data [] hb
  have hn : ("\n" : String).data = ['\n'] := rfl
  simp [linesOf, String.data_append, hn, h1, h2, linesOfChars]

theorem SingleLine.prefixed (pre s : String) (hpre : SingleLine pre) (hs : SingleLine s) :
    SingleLine (pre ++ s) := by
  unfold SingleLine at *
  simp [String.data_append, hpre, hs]

theorem error_line_ne_warning_line (e w : String) : "Error: " ++ e ≠ "Warning: " ++ w := by
  intro h
  have h1 := congrArg String.data h
  have ha : ("Error: " : String).data = ['E', 'r', 'r', 'o', 'r', ':', ' '] := rfl
  have hb : ("Warning: " : String).data = ['W', 'a', 'r', 'n', 'i', 'n', 'g', ':', ' '] := rfl
  rw [String.data_append, String.data_append, ha, hb] at h1
  simp at h1

theorem error_line_ne_fatal_line (e f : String) : "Error: " ++ e ≠ "Fatal Error: " ++ f := by
  intro h
  have h1 := congrArg String.data h
  have ha : ("Error: " : String).data = ['E', 'r', 'r', 'o', 'r', ':', ' '] := rfl
  have hb : ("Fatal Error: " : String).data
      = ['F', 'a', 't', 'a', 'l', ' ', 'E', 'r', 'r', 'o', 'r', ':', ' '] := rfl
  rw [String.data_append, String.data_append, ha, hb] at h1
  simp at h1

theorem main_eq_demo (s : Sys) :
    main s = (demo mainHeap 1 2 3 "This is a warning message." "This is an error message."
      "This is a fatal error message." s, 0) := rfl

theorem demo_world (heap : Heap) (c fe fa : Ptr) (A B w e f : String) (s : Sys)
    (hc : heap c = .ConsoleWarningObserver) (hfe : heap fe = .FileErrorObserver A)
    (hfa : heap fa = .ConsoleAndFileFatalErrorObserver B)
    (hA : s.world.canOpen A = true) (hB : s.world.canOpen B = true) :
    (demo heap c fe fa w e f s).world =
      { cout := s.world.cout ++ ("Warning: " ++ w ++ "\n") ++ ("Fatal Error: " ++ f ++ "\n")
        cerr := s.world.cerr
        canOpen := s.world.canOpen
        files := fun q =>
          if q = B then
            some (((if B = A then some ((s.world.files A).getD "" ++ ("Error: " ++ e ++ "\n"))
                    else s.world.files B).getD "") ++ ("Fatal Error: " ++ f ++ "\n"))
          else if q = A then some ((s.world.files A).getD "" ++ ("Error: " ++ e ++ "\n"))
          else s.world.files q } := by
  have hw : (ConsoleWarningObserver.onWarning w s.world).canOpen A = true := hA
  have h1 := FileErrorObserver.onError_open A e (ConsoleWarningObserver.onWarning w s.world) hw
  have hw2 : (FileErrorObserver.onError A e (ConsoleWarningObserver.onWarning w s.world)).canOpen B
      = true := by rw [h1]; exact hB
  have h2 := ConsoleAndFileFatalErrorObserver.onFatalError_open B f _ hw2
  simp only [demo, Observable.empty, Observable.addObserver, Observable.warning,
    Observable.error, Observable.fatalError, List.nil_append, List.cons_append, List.foldl_cons,
    List.foldl_nil, callOnWarning, callOnError, callOnFatalError, hc, hfe, hfa,
    Observer.onWarning, Observer.onError, Observer.onFatalError]
  rw [h2, h1]
  rfl

/-! ## End to end -/
/-- C9 (amended): end to end, for a subject with a `ConsoleWarningObserver`,
a `FileErrorObserver` on a fresh writable path `A` and a
`ConsoleAndFileFatalErrorObserver` on a different fresh writable path `B`,
registered in that order, the calls `warning(w)`, `error(e)`, `fatalError(f)`
on an empty standard output leave standard output holding `Warning: w`, a
line break, `Fatal Error: f`, a line break; file `A` holding `Error: e` and a
line break; file `B` holding `Fatal Error: f` and a line break; standard
error untouched.  When none of `w`, `e`, `f` contains a line break this is the
end-to-end expectation: standard output has the line `Warning: w`, later the
line `Fatal Error: f`, and no line `Error: e`; `A` has exactly the one line
`Error: e`; `B` has exactly the one line `Fatal Error: f`. -/
theorem C9_end_to_end_single_line_messages (heap : Heap) (c fe fa : Ptr)
    (A B w e f : String) (s : Sys)
    (hc : heap c = .ConsoleWarningObserver) (hfe : heap fe = .FileErrorObserver A)
    (hfa : heap fa = .ConsoleAndFileFatalErrorObserver B) (hAB : A ≠ B)
    (hA : s.world.canOpen A = true) (hB : s.world.canOpen B = true)
    (hfA : (s.world.files A).getD "" = "") (hfB : (s.world.files B).getD "" = "")
    (hout : s.world.cout = "") :
    ((demo heap c fe fa w e f s).world.cout
        = "Warning: " ++ w ++ "\n" ++ ("Fatal Error: " ++ f ++ "\n") ∧
     (demo heap c fe fa w e f s).world.files A = some ("Error: " ++ e ++ "\n") ∧
     (demo heap c fe fa w e f s).world.files B = some ("Fatal Error: " ++ f ++ "\n") ∧
     (demo heap c fe fa w e f s).world.cerr = s.world.cerr) ∧
    (SingleLine w → SingleLine e → SingleLine f →
      EndToEndSpec (demo heap c fe fa w e f s).world A B w e f) := by
  have hworld := demo_world heap c fe fa A B w e f s hc hfe hfa hA hB
  have hBA : B ≠ A := fun h => hAB h.symm
  have h1 : (demo heap c fe fa w e f s).world.cout
      = "Warning: " ++ w ++ "\n" ++ ("Fatal Error: " ++ f ++ "\n") := by
    rw [hworld]; simp [hout]
  have h2 : (demo heap c fe fa w e f s).world.files A = some ("Error: " ++ e ++ "\n") := by
    rw [hworld]; simp [hAB, hfA]
  have h3 : (demo heap c fe fa w e f s).world.files B
      = some ("Fatal Error: " ++ f ++ "\n") := by
    rw [hworld]; simp [hBA, hfB]
  have h4 : (demo heap c fe fa w e f s).world.cerr = s.world.cerr := by
    rw [hworld]
  refine ⟨⟨h1, h2, h3, h4⟩, ?_⟩
  intro hw he hf
  have hwl : SingleLine ("Warning: " ++ w) := SingleLine.prefixed _ _ (by decide) hw
  have hel : SingleLine ("Error: " ++ e) := SingleLine.prefixed _ _ (by decide) he
  have hfl : SingleLine ("Fatal Error: " ++ f) := SingleLine.prefixed _ _ (by decide) hf
  have hlines : linesOf (demo heap c fe fa w e f s).world.cout
      = ["Warning: " ++ w, "Fatal Error: " ++ f] := by
    rw [h1]; exact linesOf_two_lines _ _ hwl hfl
  refine ⟨?_, ?_, ?_, ?_⟩
  · rw [hlines]
  · rw [hlines]
    intro hmem
    rcases List.mem_cons.1 hmem with h | h
    · exact error_line_ne_warning_line e w h
    · rcases List.mem_cons.1 h with h | h
      · exact error_line_ne_fatal_line e f h
      · cases h
  · rw [h2]; simp [linesOf_one_line _ hel]
  · rw [h3]; simp [linesOf_one_line _ hfl]

theorem C9_end_to_end_single_line_messages_witness :
    EndToEndSpec (main ⟨World.fresh, []⟩).1.world "error_log.txt" "fatal_error_log.txt"
      "This is a warning message." "This is an error message."
      "This is a fatal error message." :=
  (C9_end_to_end_single_line_messages mainHeap 1 2 3 "error_log.txt" "fatal_error_log.txt"
    "This is a warning message." "This is an error message." "This is a fatal error message."
    ⟨World.fresh, []⟩ rfl rfl rfl (by decide) rfl rfl rfl rfl rfl).2
    (by decide) (by decide) (by decide)

/-- C9 as stated fails for a message with a line break: with the warning
message `x`, line break, `Error: e1` and the error message `e1`, standard
output does contain the line `Error: e1`. -/
theorem C9_counterexample_multiline_message :
    ¬ EndToEndSpec
        (demo mainHeap 1 2 3 "x\nError: e1" "e1" "f1" ⟨World.fresh, []⟩).world
        "error_log.txt" "fatal_error_log.txt" "x\nError: e1" "e1" "f1" :=
  fun h => h.2.1 (by decide)

end Logger
